import Mathlib

/-!
Verification of the fitness-app LLM wrapper and nutritionist web backend.

Shallow embedding of the reviewable core:
* `LLMWrapper._messages_to_prompt` (src/llm_wrapper/core.py) — conversation flattening;
* `parse_nutritionist_response` (src/web/app.py) — regex tag extraction;
* `Config.__init__` (src/llm_wrapper/config.py) — credential validation;
* `AnthropicProvider.generate` / `OpenAIProvider.generate`
  (src/llm_wrapper/providers/{anthropic,openai}.py) — request construction and
  error translation, with the vendor transport abstracted as a function;
* the `LLMWrapper` facade pass-through methods (src/llm_wrapper/core.py).

Strings are modelled as `List Char`; Python `dict.get` defaults are modelled with
`Option`; Python truthiness of strings/ints is modelled explicitly.
-/

/-- Strings of the Python program, modelled as lists of characters. -/
abbrev Str := List Char

/-- Coerce a Lean string literal into the character-list model. -/
def str (s : String) : Str := s.toList

/-! ### Generic string helpers (substring search, Python semantics) -/

/-- `startsWithL p s` is true when `p` is a leading segment of `s`. -/
def startsWithL : Str → Str → Bool
  | [], _ => true
  | _ :: _, [] => false
  | a :: as, b :: bs => a == b && startsWithL as bs

/-- Split `s` at the first occurrence of `p`: returns the part before the
occurrence and the part after it (the occurrence itself removed), or `none`
when `p` does not occur in `s`.  This is the substring-location behaviour of
`re.search` for a literal pattern. -/
def splitOnFirst (p : Str) : Str → Option (Str × Str)
  | [] => if startsWithL p [] then some ([], []) else none
  | ch :: rest =>
      if startsWithL p (ch :: rest) then some ([], (ch :: rest).drop p.length)
      else
        match splitOnFirst p rest with
        | some (u, v) => some (ch :: u, v)
        | none => none

/-- The body between the first occurrence of `o` and the first occurrence of
`c` after it.  Models the regex `o + r"\s*(.*?)\s*" + c` under `re.DOTALL`:
the overall match starts at the first `o` and, because the capture group is
non-greedy, ends at the first `c` after that `o`; the `\s*` borders only move
whitespace between the group and its surroundings, which the subsequent
`.strip()` removes either way. -/
def extractBetween (o c s : Str) : Option Str :=
  match splitOnFirst o s with
  | none => none
  | some (_, r) =>
      match splitOnFirst c r with
      | none => none
      | some (b, _) => some b

/-- Characters removed by Python `str.strip()` (the ASCII whitespace class;
the inputs of interest contain no other Unicode whitespace). -/
def isPySpace (c : Char) : Bool :=
  c == ' ' || c == '\t' || c == '\n' || c == '\r' || c == '\x0b' || c == '\x0c'

/-- Python `str.strip()`: drop whitespace from both ends. -/
def stripL (s : Str) : Str :=
  ((s.dropWhile isPySpace).reverse.dropWhile isPySpace).reverse

/-! ### Message model and conversation flattening (src/llm_wrapper/core.py) -/

/-- A chat message dictionary.  Either key may be absent, which
`message.get("role", "user")` / `message.get("content", "")` default away. -/
structure Message where
  role : Option Str
  content : Option Str
deriving DecidableEq, Repr

/-- The recognised role literals. -/
def roleSystem : Str := str "system"

def roleUser : Str := str "user"

def roleAssistant : Str := str "assistant"

/-- One iteration of the loop body of `_messages_to_prompt`: the rendered part
appended to `prompt_parts`, or `none` when the branch chain falls through
(role present but unrecognised). -/
def renderPart (m : Message) : Option Str :=
  let role := m.role.getD roleUser
  let content := m.content.getD []
  if role = roleSystem then some (str "System: " ++ content)
  else if role = roleUser then some (str "User: " ++ content)
  else if role = roleAssistant then some (str "Assistant: " ++ content)
  else none

/-- The `prompt_parts` list built by the loop in `_messages_to_prompt`. -/
def promptParts (msgs : List Message) : List Str :=
  msgs.foldl
    (fun acc m =>
      match renderPart m with
      | some p => acc ++ [p]
      | none => acc)
    []

/-- Python `sep.join(parts)`. -/
def joinSep (sep : Str) : List Str → Str
  | [] => []
  | [x] => x
  | x :: y :: xs => x ++ sep ++ joinSep sep (y :: xs)

/-- `LLMWrapper._messages_to_prompt`:
`"\n\n".join(prompt_parts) + "\n\nAssistant:"`. -/
def messages_to_prompt (msgs : List Message) : Str :=
  joinSep (str "\n\n") (promptParts msgs) ++ str "\n\nAssistant:"

/-! ### Response-tag parser (src/web/app.py) -/

/-- The dictionary returned by `parse_nutritionist_response`. -/
structure ParsedResponse where
  chat : Str
  meal_plan : Str
  raw_response : Str
  parsing_error : Bool
deriving DecidableEq, Repr

def chatOpenT : Str := str "<chat>"

def chatCloseT : Str := str "</chat>"

def mealOpenT : Str := str "<meal-plan>"

def mealCloseT : Str := str "</meal-plan>"

/-- `parse_nutritionist_response`: extract the first `<chat>…</chat>` and
`<meal-plan>…</meal-plan>` bodies; on success strip each body, otherwise
return the sentinel failure payload.  The Python `except` catch-all is
unreachable for string inputs (regex search, `group` and `strip` are total
there), so it has no counterpart in the embedding. -/
def parse_nutritionist_response (s : Str) : ParsedResponse :=
  match extractBetween chatOpenT chatCloseT s, extractBetween mealOpenT mealCloseT s with
  | some c, some m =>
      { chat := stripL c, meal_plan := stripL m, raw_response := s, parsing_error := false }
  | _, _ =>
      { chat := str "PARSING ERROR", meal_plan := [], raw_response := s, parsing_error := true }

/-- A tag pair `o … c` is present in `s`: some occurrence of `o` is followed,
further right, by an occurrence of `c`. -/
def TagPairPresent (o c s : Str) : Prop :=
  ∃ a b d, s = a ++ o ++ b ++ c ++ d

/-! ### Python truthiness helpers -/

/-- Python `x or d` for `x : Optional[str]`: `None` and `""` are falsy. -/
def pyOrStr (x : Option Str) (d : Str) : Str :=
  match x with
  | none => d
  | some s => if s = [] then d else s

/-- Python `x or d` for `x : Optional[int]`: `None` and `0` are falsy. -/
def pyOrNat (x : Option Nat) (d : Nat) : Nat :=
  match x with
  | none => d
  | some n => if n = 0 then d else n

/-- Python `a or b` for two `Optional[str]` values (used in `Config.__init__`
for `anthropic_api_key or os.getenv("ANTHROPIC_API_KEY")`). -/
def pyFirstTruthy (a b : Option Str) : Option Str :=
  match a with
  | none => b
  | some s => if s = [] then b else some s

/-! ### Configuration (src/llm_wrapper/config.py) -/

/-- The `ValueError` text raised by `Config.__init__`. -/
def configErrMsg : Str :=
  str "Anthropic API key is required. Set ANTHROPIC_API_KEY environment variable or pass it directly."

/-- `Config.__init__(anthropic_api_key)`: take the argument or, when that is
falsy, the environment value; raise when the result is still falsy, else store
it.  `arg` is the constructor argument, `env` the value of
`os.getenv("ANTHROPIC_API_KEY")`.  The result is the stored
`anthropic_api_key` on success. -/
def configInit (arg env : Option Str) : Except Str Str :=
  match pyFirstTruthy arg env with
  | none => Except.error configErrMsg
  | some k => if k = [] then Except.error configErrMsg else Except.ok k

/-! ### Concrete providers (src/llm_wrapper/providers/{anthropic,openai}.py)

The vendor SDK call is abstracted as a `transport` function from the request
the provider builds to either the completion text or an error message. -/

/-- Stand-in for the float `temperature` parameter: the providers only forward
it, never inspect it, so its carrier is irrelevant. -/
abbrev Temperature := Int

/-- Default model of `AnthropicProvider` (the `kwargs.get` default). -/
def anthropicDefaultModel : Str := str "claude-3-5-haiku-20241022"

/-- Default model of `OpenAIProvider` (the `kwargs.get` default). -/
def openaiDefaultModel : Str := str "gpt-3.5-turbo"

/-- The keyword arguments of `self.client.messages.create` in
`AnthropicProvider.generate`.  `max_tokens` is `max_tokens or 1000`, a
concrete integer. -/
structure AnthropicRequest where
  model : Str
  max_tokens : Nat
  temperature : Option Temperature
  messages : List Message
deriving DecidableEq, Repr

/-- The request built by `AnthropicProvider.generate` from its arguments
(`model = model or self.default_model`; `max_tokens = max_tokens or 1000`). -/
def anthropicRequest (defaultModel prompt : Str) (model : Option Str)
    (maxTokens : Option Nat) (temp : Option Temperature) : AnthropicRequest :=
  { model := pyOrStr model defaultModel
    max_tokens := pyOrNat maxTokens 1000
    temperature := temp
    messages := [⟨some roleUser, some prompt⟩] }

/-- The keyword arguments of `self.client.chat.completions.create` in
`OpenAIProvider.generate`.  `max_tokens` is forwarded as-is and may be
absent. -/
structure OpenAIRequest where
  model : Str
  max_tokens : Option Nat
  temperature : Option Temperature
  messages : List Message
deriving DecidableEq, Repr

/-- The request built by `OpenAIProvider.generate` from its arguments
(`model = model or self.default_model`; `max_tokens` passed through). -/
def openaiRequest (defaultModel prompt : Str) (model : Option Str)
    (maxTokens : Option Nat) (temp : Option Temperature) : OpenAIRequest :=
  { model := pyOrStr model defaultModel
    max_tokens := maxTokens
    temperature := temp
    messages := [⟨some roleUser, some prompt⟩] }

/-- `AnthropicProvider.generate`: build the request, make one transport call,
return its text, wrapping any failure in
`Exception(f"Anthropic API error: {str(e)}")`. -/
def anthropic_generate (transport : AnthropicRequest → Except Str Str)
    (defaultModel prompt : Str) (model : Option Str) (maxTokens : Option Nat)
    (temp : Option Temperature) : Except Str Str :=
  match transport (anthropicRequest defaultModel prompt model maxTokens temp) with
  | Except.ok t => Except.ok t
  | Except.error e => Except.error (str "Anthropic API error: " ++ e)

/-- `AnthropicProvider.generate` instrumented with the list of requests it
issues to the transport: the body contains exactly one `create` call, executed
once. -/
def anthropic_generate_trace (transport : AnthropicRequest → Except Str Str)
    (defaultModel prompt : Str) (model : Option Str) (maxTokens : Option Nat)
    (temp : Option Temperature) : Except Str Str × List AnthropicRequest :=
  (anthropic_generate transport defaultModel prompt model maxTokens temp,
   [anthropicRequest defaultModel prompt model maxTokens temp])

/-- `OpenAIProvider.generate`: build the request, make one transport call,
return its text, wrapping any failure in
`Exception(f"OpenAI API error: {str(e)}")`. -/
def openai_generate (transport : OpenAIRequest → Except Str Str)
    (defaultModel prompt : Str) (model : Option Str) (maxTokens : Option Nat)
    (temp : Option Temperature) : Except Str Str :=
  match transport (openaiRequest defaultModel prompt model maxTokens temp) with
  | Except.ok t => Except.ok t
  | Except.error e => Except.error (str "OpenAI API error: " ++ e)

/-- `OpenAIProvider.generate` instrumented with the list of requests it issues
to the transport. -/
def openai_generate_trace (transport : OpenAIRequest → Except Str Str)
    (defaultModel prompt : Str) (model : Option Str) (maxTokens : Option Nat)
    (temp : Option Temperature) : Except Str Str × List OpenAIRequest :=
  (openai_generate transport defaultModel prompt model maxTokens temp,
   [openaiRequest defaultModel prompt model maxTokens temp])

/-! ### Wrapper facade (src/llm_wrapper/core.py) -/

/-- The provider contract `{generate, generate_stream, get_available_models}`
(src/llm_wrapper/providers/base.py), as the behaviour of one held provider:
each operation is a function of the facade-visible arguments.  A stream is the
list of fragments the provider yields. -/
structure Provider where
  generate : Str → Option Str → Option Nat → Option Temperature → Except Str Str
  generate_stream : Str → Option Str → Option Nat → Option Temperature → List Str
  get_available_models : List Str

/-- The `LLMWrapper` facade: holds exactly one provider. -/
structure LLMWrapper where
  provider : Provider

/-- `LLMWrapper.generate`: `return self.provider.generate(...)` with the same
parameters. -/
def LLMWrapper.generate (w : LLMWrapper) (prompt : Str) (model : Option Str)
    (maxTokens : Option Nat) (temp : Option Temperature) : Except Str Str :=
  w.provider.generate prompt model maxTokens temp

/-- `LLMWrapper.generate_stream`: `yield from self.provider.generate_stream(...)`,
re-emitting the provider's fragments unchanged and in order. -/
def LLMWrapper.generate_stream (w : LLMWrapper) (prompt : Str) (model : Option Str)
    (maxTokens : Option Nat) (temp : Option Temperature) : List Str :=
  w.provider.generate_stream prompt model maxTokens temp

/-- `LLMWrapper.get_available_models`: `return self.provider.get_available_models()`. -/
def LLMWrapper.get_available_models (w : LLMWrapper) : List Str :=
  w.provider.get_available_models

/-- `LLMWrapper.chat`: flatten the conversation and call `self.generate` on
the resulting prompt. -/
def LLMWrapper.chat (w : LLMWrapper) (msgs : List Message) (model : Option Str)
    (maxTokens : Option Nat) (temp : Option Temperature) : Except Str Str :=
  w.generate (messages_to_prompt msgs) model maxTokens temp

/-! ### Helper lemmas about the string machinery -/

theorem startsWithL_iff (p s : Str) : startsWithL p s = true ↔ ∃ t, s = p ++ t := by
  induction p generalizing s with
  | nil => simp [startsWithL]
  | cons a as ih =>
    cases s with
    | nil => simp [startsWithL]
    | cons b bs =>
      simp only [startsWithL, Bool.and_eq_true, beq_iff_eq, ih]
      constructor
      · rintro ⟨rfl, t, rfl⟩; exact ⟨t, rfl⟩
      · rintro ⟨t, ht⟩
        injection ht with h1 h2
        exact ⟨h1.symm, t, h2⟩

theorem startsWithL_self_append (p t : Str) : startsWithL p (p ++ t) = true :=
  (startsWithL_iff p (p ++ t)).2 ⟨t, rfl⟩

theorem startsWithL_of_append {p l t : Str} (h : startsWithL p (l ++ t) = true)
    (hlen : p.length ≤ l.length) : startsWithL p l = true := by
  obtain ⟨r, hr⟩ := (startsWithL_iff p (l ++ t)).1 h
  refine (startsWithL_iff p l).2 ⟨l.drop p.length, ?_⟩
  have htake : (l ++ t).take p.length = p := by
    rw [hr, List.take_append_of_le_length (by simp)]
    simp
  rw [List.take_append_of_le_length hlen] at htake
  conv_lhs => rw [← List.take_append_drop p.length l, htake]

theorem splitOnFirst_sound {p : Str} : ∀ {s u v : Str},
    splitOnFirst p s = some (u, v) → s = u ++ p ++ v := by
  intro s
  induction s with
  | nil =>
    intro u v h
    by_cases hp : startsWithL p [] = true
    · simp only [splitOnFirst, hp, if_true, Option.some.injEq, Prod.mk.injEq] at h
      obtain ⟨rfl, rfl⟩ := h
      obtain ⟨t, ht⟩ := (startsWithL_iff p []).1 hp
      simp at ht
      simp [ht.1]
    · simp [splitOnFirst, hp] at h
  | cons ch rest ih =>
    intro u v h
    by_cases hp : startsWithL p (ch :: rest) = true
    · simp only [splitOnFirst, hp, if_true, Option.some.injEq, Prod.mk.injEq] at h
      obtain ⟨rfl, rfl⟩ := h
      obtain ⟨t, ht⟩ := (startsWithL_iff p (ch :: rest)).1 hp
      rw [ht]
      simp [List.drop_left]
    · simp only [splitOnFirst, hp, if_false] at h
      cases hsp : splitOnFirst p rest with
      | none => rw [hsp] at h; simp at h
      | some uv =>
        obtain ⟨u0, v0⟩ := uv
        rw [hsp] at h
        simp only [Option.some.injEq, Prod.mk.injEq] at h
        obtain ⟨rfl, rfl⟩ := h
        rw [ih hsp]
        simp

theorem splitOnFirst_isSome {p s : Str} (h : ∃ u v, s = u ++ p ++ v) :
    (splitOnFirst p s).isSome = true := by
  obtain ⟨u, v, rfl⟩ := h
  induction u with
  | nil =>
    have hs : startsWithL p ([] ++ p ++ v) = true := by
      simpa using startsWithL_self_append p v
    cases hpv : ([] ++ p ++ v : Str) with
    | nil => simp [splitOnFirst, hpv ▸ hs]
    | cons ch rest => simp [splitOnFirst, hpv ▸ hs, hpv]
  | cons ch u ih =>
    show (splitOnFirst p (ch :: (u ++ p ++ v))).isSome = true
    by_cases hp : startsWithL p (ch :: (u ++ p ++ v)) = true
    · have hp2 : startsWithL p (ch :: (u ++ (p ++ v))) = true := by
        simpa [List.append_assoc] using hp
      simp [splitOnFirst, hp2]
    · simp only [splitOnFirst, hp, if_false]
      cases hsp : splitOnFirst p (u ++ p ++ v) with
      | none => rw [hsp] at ih; simp at ih
      | some uv => simp

theorem splitOnFirst_min {p : Str} : ∀ {s u v : Str}, splitOnFirst p s = some (u, v) →
    ∀ u2 v2, s = u2 ++ p ++ v2 → u.length ≤ u2.length := by
  intro s
  induction s with
  | nil =>
    intro u v h u2 v2 _
    by_cases hp : startsWithL p [] = true
    · simp only [splitOnFirst, hp, if_true, Option.some.injEq, Prod.mk.injEq] at h
      obtain ⟨rfl, rfl⟩ := h
      simp
    · simp [splitOnFirst, hp] at h
  | cons ch rest ih =>
    intro u v h u2 v2 hs
    by_cases hp : startsWithL p (ch :: rest) = true
    · simp only [splitOnFirst, hp, if_true, Option.some.injEq, Prod.mk.injEq] at h
      obtain ⟨rfl, rfl⟩ := h
      simp
    · simp only [splitOnFirst, hp, if_false] at h
      cases hsp : splitOnFirst p rest with
      | none => rw [hsp] at h; simp at h
      | some uv =>
        obtain ⟨u0, v0⟩ := uv
        rw [hsp] at h
        simp only [Option.some.injEq, Prod.mk.injEq] at h
        obtain ⟨rfl, rfl⟩ := h
        cases u2 with
        | nil =>
          exfalso
          apply hp
          refine (startsWithL_iff p (ch :: rest)).2 ⟨v2, ?_⟩
          simpa using hs
        | cons ch2 u3 =>
          have hs2 : rest = u3 ++ p ++ v2 := by
            have : ch :: rest = ch2 :: (u3 ++ p ++ v2) := by simpa using hs
            exact (List.cons.injEq _ _ _ _ ▸ this).2
          have := ih hsp u3 v2 hs2
          simpa using Nat.succ_le_succ this

theorem splitOnFirst_startsWith {p s : Str} (h : startsWithL p s = true) :
    splitOnFirst p s = some ([], s.drop p.length) := by
  cases s with
  | nil =>
    have hp : p = [] := by
      obtain ⟨t, ht⟩ := (startsWithL_iff p []).1 h
      exact (List.append_eq_nil.1 ht.symm).1
    subst hp
    simp [splitOnFirst, startsWithL]
  | cons ch rest => simp [splitOnFirst, h]

theorem splitOnFirst_first {p : Str} : ∀ (a v : Str),
    (∀ i, i < a.length → startsWithL p ((a ++ p).drop i) = false) →
    splitOnFirst p (a ++ p ++ v) = some (a, v) := by
  intro a
  induction a with
  | nil =>
    intro v _
    rw [List.nil_append,
      splitOnFirst_startsWith (startsWithL_self_append p v), List.drop_left]
  | cons ch a ih =>
    intro v H
    have hne : ¬ startsWithL p ((ch :: a) ++ p ++ v) = true := by
      intro htrue
      have hlen : p.length ≤ ((ch :: a) ++ p).length := by
        simp [List.length_append]
        omega
      have h0 : startsWithL p ((ch :: a) ++ p) = true :=
        startsWithL_of_append htrue hlen
      have hfalse := H 0 (by simp)
      rw [List.drop_zero, h0] at hfalse
      exact Bool.noConfusion hfalse
    have hshape : (ch :: a) ++ p ++ v = ch :: (a ++ p ++ v) := by simp
    rw [hshape] at hne ⊢
    have Ha : ∀ i, i < a.length → startsWithL p ((a ++ p).drop i) = false := by
      intro i hi
      have := H (i + 1) (by simpa using Nat.succ_lt_succ hi)
      simpa [List.drop_succ_cons] using this
    simp only [splitOnFirst, hne, if_false, ih v Ha]
    simp

theorem extractBetween_isSome_iff (o c s : Str) :
    (extractBetween o c s).isSome = true ↔ TagPairPresent o c s := by
  constructor
  · intro h
    cases h1 : splitOnFirst o s with
    | none => simp [extractBetween, h1] at h
    | some ur =>
      obtain ⟨u, r⟩ := ur
      cases h2 : splitOnFirst c r with
      | none => simp [extractBetween, h1, h2] at h
      | some bd =>
        obtain ⟨b, d⟩ := bd
        have hs := splitOnFirst_sound h1
        have hr := splitOnFirst_sound h2
        exact ⟨u, b, d, by rw [hs, hr]; simp⟩
  · rintro ⟨a, b, d, rfl⟩
    have h1 : (splitOnFirst o (a ++ o ++ b ++ c ++ d)).isSome = true :=
      splitOnFirst_isSome ⟨a, b ++ c ++ d, by simp⟩
    obtain ⟨⟨u, r⟩, hu⟩ := Option.isSome_iff_exists.1 h1
    have hs := splitOnFirst_sound hu
    have hmin : u.length ≤ a.length := splitOnFirst_min hu a (b ++ c ++ d) (by simp)
    have hk : u.length + o.length ≤ (a ++ o ++ b).length := by
      simp only [List.length_append]
      omega
    have hr3 : r = ((a ++ o ++ b) ++ (c ++ d)).drop (u.length + o.length) := by
      have h4 : (a ++ o ++ b) ++ (c ++ d) = (u ++ o) ++ r := by
        calc (a ++ o ++ b) ++ (c ++ d) = a ++ o ++ b ++ c ++ d := by
              simp [List.append_assoc]
          _ = (u ++ o) ++ r := hs
      rw [h4, ← List.length_append u o, List.drop_left]
    have hcd : r = ((a ++ o ++ b).drop (u.length + o.length)) ++ (c ++ d) := by
      rw [hr3, List.drop_append_of_le_length hk]
    have h2 : (splitOnFirst c r).isSome = true :=
      splitOnFirst_isSome
        ⟨(a ++ o ++ b).drop (u.length + o.length), d, by rw [hcd]; simp [List.append_assoc]⟩
    obtain ⟨⟨b2, d2⟩, h2e⟩ := Option.isSome_iff_exists.1 h2
    have hu2 : splitOnFirst o (a ++ (o ++ (b ++ (c ++ d)))) = some (u, r) := by
      simpa [List.append_assoc] using hu
    simp [extractBetween, hu2, h2e]

theorem promptParts_foldl_aux (msgs : List Message) : ∀ acc : List Str,
    msgs.foldl
      (fun acc m =>
        match renderPart m with
        | some p => acc ++ [p]
        | none => acc)
      acc
    = acc ++ msgs.filterMap renderPart := by
  induction msgs with
  | nil => intro acc; simp
  | cons m ms ih =>
    intro acc
    cases h : renderPart m with
    | some p => simp [h, ih, List.filterMap_cons]
    | none => simp [h, ih, List.filterMap_cons]

theorem promptParts_eq_filterMap (msgs : List Message) :
    promptParts msgs = msgs.filterMap renderPart := by
  unfold promptParts
  rw [promptParts_foldl_aux]
  simp

/-! ### Spec-side rendering, for comparison with the code's flattening -/

/-- Modelled from the spec: "the capitalized role name
(System/User/Assistant)".  Unrecognised roles get an arbitrary value; the
comparison theorems only use recognised roles. -/
def specCapRole (r : Str) : Str :=
  if r = roleSystem then str "System"
  else if r = roleUser then str "User"
  else if r = roleAssistant then str "Assistant"
  else []

/-- Modelled from the spec: render a message as `"{Role}: {content}"`. -/
def specRender (m : Message) : Str :=
  specCapRole (m.role.getD []) ++ str ": " ++ m.content.getD []

theorem renderPart_system (c : Option Str) :
    renderPart ⟨some roleSystem, c⟩ = some (str "System: " ++ c.getD []) := by
  simp [renderPart]

theorem renderPart_user (c : Option Str) :
    renderPart ⟨some roleUser, c⟩ = some (str "User: " ++ c.getD []) := by
  have h1 : ¬ (roleUser = roleSystem) := by decide
  simp [renderPart, h1]

theorem renderPart_assistant (c : Option Str) :
    renderPart ⟨some roleAssistant, c⟩ = some (str "Assistant: " ++ c.getD []) := by
  have h1 : ¬ (roleAssistant = roleSystem) := by decide
  have h2 : ¬ (roleAssistant = roleUser) := by decide
  simp [renderPart, h1, h2]

theorem renderPart_no_role (c : Option Str) :
    renderPart ⟨none, c⟩ = some (str "User: " ++ c.getD []) := by
  have h1 : ¬ (roleUser = roleSystem) := by decide
  simp [renderPart, h1]

theorem renderPart_unrecognized {r : Str} (c : Option Str)
    (h1 : r ≠ roleSystem) (h2 : r ≠ roleUser) (h3 : r ≠ roleAssistant) :
    renderPart ⟨some r, c⟩ = none := by
  simp [renderPart, h1, h2, h3]

theorem renderPart_eq_specRender {m : Message}
    (hrole : m.role = some roleSystem ∨ m.role = some roleUser ∨ m.role = some roleAssistant)
    (hcontent : m.content.isSome = true) :
    renderPart m = some (specRender m) := by
  obtain ⟨ro, co⟩ := m
  obtain ⟨c, hc⟩ := Option.isSome_iff_exists.1 hcontent
  simp only at hc
  subst hc
  rcases hrole with h | h | h <;> simp only at h <;> subst h
  · rw [renderPart_system]
    have hcap : str "System: " = str "System" ++ str ": " := by decide
    simp [specRender, specCapRole, hcap, List.append_assoc]
  · rw [renderPart_user]
    have hu1 : ¬ (roleUser = roleSystem) := by decide
    have hcap : str "User: " = str "User" ++ str ": " := by decide
    simp [specRender, specCapRole, hu1, hcap, List.append_assoc]
  · rw [renderPart_assistant]
    have ha1 : ¬ (roleAssistant = roleSystem) := by decide
    have ha2 : ¬ (roleAssistant = roleUser) := by decide
    have hcap : str "Assistant: " = str "Assistant" ++ str ": " := by decide
    simp [specRender, specCapRole, ha1, ha2, hcap, List.append_assoc]

theorem filterMap_eq_map_of_some {α β : Type} {f : α → Option β} {g : α → β} :
    ∀ {l : List α}, (∀ x ∈ l, f x = some (g x)) → l.filterMap f = l.map g := by
  intro l
  induction l with
  | nil => intro _; simp
  | cons x xs ih =>
    intro h
    rw [List.filterMap_cons, h x (by simp), List.map_cons,
      ih (fun y hy => h y (by simp [hy]))]

/-! ### Claim theorems -/

/-- C1: for every conversation whose messages all carry a recognised role and
a content value, `chat`'s flattening renders each message as
`"{Role}: {content}"` in input order, joins the parts with `"\n\n"` and
appends the trailing `"\n\nAssistant:"` cue; the two-message example
`[{system,"You are helpful"},{user,"Hi"}]` flattens to exactly
`"System: You are helpful\n\nUser: Hi\n\nAssistant:"`; and for every input
list the output ends with the literal suffix `"Assistant:"`. -/
theorem chat_flatten_correct (msgs : List Message)
    (hrole : ∀ m ∈ msgs,
      m.role = some roleSystem ∨ m.role = some roleUser ∨ m.role = some roleAssistant)
    (hcontent : ∀ m ∈ msgs, m.content.isSome = true) :
    messages_to_prompt msgs
        = joinSep (str "\n\n") (msgs.map specRender) ++ str "\n\nAssistant:"
      ∧ messages_to_prompt
          [⟨some roleSystem, some (str "You are helpful")⟩,
           ⟨some roleUser, some (str "Hi")⟩]
          = str "System: You are helpful\n\nUser: Hi\n\nAssistant:"
      ∧ ∀ ms : List Message, ∃ q, messages_to_prompt ms = q ++ str "Assistant:" := by
  refine ⟨?_, by decide, ?_⟩
  · unfold messages_to_prompt
    rw [promptParts_eq_filterMap,
      filterMap_eq_map_of_some
        (fun m hm => renderPart_eq_specRender (hrole m hm) (hcontent m hm))]
  · intro ms
    refine ⟨joinSep (str "\n\n") (promptParts ms) ++ str "\n\n", ?_⟩
    unfold messages_to_prompt
    have h : str "\n\nAssistant:" = str "\n\n" ++ str "Assistant:" := by decide
    rw [h, ← List.append_assoc]

/-- C1 witness: the theorem applied to the concrete two-message
conversation. -/
theorem chat_flatten_correct_witness :
    messages_to_prompt
        [⟨some roleSystem, some (str "You are helpful")⟩,
         ⟨some roleUser, some (str "Hi")⟩]
        = joinSep (str "\n\n")
            ([⟨some roleSystem, some (str "You are helpful")⟩,
              (⟨some roleUser, some (str "Hi")⟩ : Message)].map specRender)
          ++ str "\n\nAssistant:"
      ∧ messages_to_prompt
          [⟨some roleSystem, some (str "You are helpful")⟩,
           ⟨some roleUser, some (str "Hi")⟩]
          = str "System: You are helpful\n\nUser: Hi\n\nAssistant:"
      ∧ ∀ ms : List Message, ∃ q, messages_to_prompt ms = q ++ str "Assistant:" :=
  chat_flatten_correct
    [⟨some roleSystem, some (str "You are helpful")⟩, ⟨some roleUser, some (str "Hi")⟩]
    (by decide) (by decide)

/-- C5 counterexample: the message `{role: "tool", content: "Assistant:"}` is
dropped by the flattening (it renders to no part), yet its content appears
verbatim in the flattened output, refuting "the dropped message's content
does not appear in the output verbatim". -/
theorem chat_drop_counterexample :
    renderPart ⟨some (str "tool"), some (str "Assistant:")⟩ = none
      ∧ ∃ a b, messages_to_prompt [⟨some (str "tool"), some (str "Assistant:")⟩]
          = a ++ str "Assistant:" ++ b :=
  ⟨by decide, ⟨str "\n\n", [], by decide⟩⟩

/-- C5 (amended): a message whose role is present but unrecognised
contributes nothing to the flattening — the output equals the output with
that message removed — and the number of rendered parts never exceeds the
number of input messages.  (Its content can still appear verbatim when the
rest of the output happens to contain it.) -/
theorem chat_drop_unrecognized (xs ys : List Message) (m : Message) (r : Str)
    (hr : m.role = some r) (h1 : r ≠ roleSystem) (h2 : r ≠ roleUser)
    (h3 : r ≠ roleAssistant) :
    messages_to_prompt (xs ++ m :: ys) = messages_to_prompt (xs ++ ys)
      ∧ ∀ ms : List Message, (promptParts ms).length ≤ ms.length := by
  constructor
  · have hp : promptParts (xs ++ m :: ys) = promptParts (xs ++ ys) := by
      rw [promptParts_eq_filterMap, promptParts_eq_filterMap, List.filterMap_append,
        List.filterMap_append, List.filterMap_cons]
      obtain ⟨ro, co⟩ := m
      simp only at hr
      subst hr
      rw [renderPart_unrecognized co h1 h2 h3]
    unfold messages_to_prompt
    rw [hp]
  · intro ms
    rw [promptParts_eq_filterMap]
    exact List.length_filterMap_le renderPart ms

/-- C5 witness: the amended theorem applied to a concrete dropped message. -/
theorem chat_drop_unrecognized_witness :
    messages_to_prompt
        ([⟨some roleUser, some (str "Hi")⟩]
          ++ (⟨some (str "tool"), some (str "secret")⟩ : Message) :: [])
      = messages_to_prompt ([⟨some roleUser, some (str "Hi")⟩] ++ [])
      ∧ ∀ ms : List Message, (promptParts ms).length ≤ ms.length :=
  chat_drop_unrecognized [⟨some roleUser, some (str "Hi")⟩] [] _ (str "tool")
    rfl (by decide) (by decide) (by decide)

/-- C9: a message lacking a role key is not dropped — it is rendered as
`"User: {content}"`; a message lacking a content key is rendered exactly as
one with empty content; and a message is dropped precisely when its role key
is present with an unrecognised value. -/
theorem chat_missing_keys (c : Str) (xs ys : List Message) :
    promptParts (xs ++ ⟨none, some c⟩ :: ys)
        = promptParts xs ++ (str "User: " ++ c) :: promptParts ys
      ∧ (∀ r : Str, renderPart ⟨some r, none⟩ = renderPart ⟨some r, some []⟩)
      ∧ (∀ m : Message, renderPart m = none ↔
          ∃ r, m.role = some r ∧ r ≠ roleSystem ∧ r ≠ roleUser ∧ r ≠ roleAssistant) := by
  refine ⟨?_, fun r => rfl, fun m => ⟨?_, ?_⟩⟩
  · rw [promptParts_eq_filterMap, promptParts_eq_filterMap, promptParts_eq_filterMap,
      List.filterMap_append, List.filterMap_cons, renderPart_no_role]
    simp
  · intro h
    obtain ⟨ro, co⟩ := m
    cases ro with
    | none => rw [renderPart_no_role] at h; exact absurd h (by simp)
    | some r =>
      by_cases h1 : r = roleSystem
      · subst h1; rw [renderPart_system] at h; exact absurd h (by simp)
      · by_cases h2 : r = roleUser
        · subst h2; rw [renderPart_user] at h; exact absurd h (by simp)
        · by_cases h3 : r = roleAssistant
          · subst h3; rw [renderPart_assistant] at h; exact absurd h (by simp)
          · exact ⟨r, rfl, h1, h2, h3⟩
  · rintro ⟨r, hr, h1, h2, h3⟩
    obtain ⟨ro, co⟩ := m
    simp only at hr
    subst hr
    exact renderPart_unrecognized co h1 h2 h3

/-- C2: whenever either the `<chat>…</chat>` or the `<meal-plan>…</meal-plan>`
tag pair is absent from the input, `parse_nutritionist_response` returns chat
`"PARSING ERROR"`, an empty meal plan, the failure flag set, and the raw field
equal to the input; and for every input (success or failure) the raw field
equals the input exactly. -/
theorem parse_missing_tag (s : Str)
    (h : ¬ TagPairPresent chatOpenT chatCloseT s
        ∨ ¬ TagPairPresent mealOpenT mealCloseT s) :
    parse_nutritionist_response s = ⟨str "PARSING ERROR", [], s, true⟩
      ∧ ∀ t : Str, (parse_nutritionist_response t).raw_response = t := by
  constructor
  · cases h1 : extractBetween chatOpenT chatCloseT s with
    | none => simp [parse_nutritionist_response, h1]
    | some c1 =>
      cases h2 : extractBetween mealOpenT mealCloseT s with
      | none => simp [parse_nutritionist_response, h1, h2]
      | some m1 =>
        exfalso
        rcases h with h | h
        · exact h ((extractBetween_isSome_iff _ _ _).1 (by rw [h1]; rfl))
        · exact h ((extractBetween_isSome_iff _ _ _).1 (by rw [h2]; rfl))
  · intro t
    cases hx : extractBetween chatOpenT chatCloseT t with
    | none => simp [parse_nutritionist_response, hx]
    | some c1 =>
      cases hy : extractBetween mealOpenT mealCloseT t with
      | none => simp [parse_nutritionist_response, hx, hy]
      | some m1 => simp [parse_nutritionist_response, hx, hy]

/-- C2 witness: the theorem applied to the tag-free input `"hello"`. -/
theorem parse_missing_tag_witness :
    parse_nutritionist_response (str "hello")
        = ⟨str "PARSING ERROR", [], str "hello", true⟩
      ∧ ∀ t : Str, (parse_nutritionist_response t).raw_response = t :=
  parse_missing_tag (str "hello")
    (Or.inl (fun hp =>
      absurd ((extractBetween_isSome_iff chatOpenT chatCloseT (str "hello")).2 hp)
        (by decide)))

/-- C3: for an input containing well-formed `<chat>X</chat>` and
`<meal-plan>Y</meal-plan>` sections — the occurrences designated by the
hypotheses being the first match of each tag pair — the parser returns chat
`trim(X)`, meal-plan `trim(Y)`, no failure flag, and the raw input. -/
theorem parse_success (s a1 x b1 a2 y b2 : Str)
    (hs1 : s = a1 ++ chatOpenT ++ x ++ chatCloseT ++ b1)
    (hf1 : ∀ i, i < a1.length → startsWithL chatOpenT ((a1 ++ chatOpenT).drop i) = false)
    (hf2 : ∀ i, i < x.length → startsWithL chatCloseT ((x ++ chatCloseT).drop i) = false)
    (hs2 : s = a2 ++ mealOpenT ++ y ++ mealCloseT ++ b2)
    (hf3 : ∀ i, i < a2.length → startsWithL mealOpenT ((a2 ++ mealOpenT).drop i) = false)
    (hf4 : ∀ i, i < y.length → startsWithL mealCloseT ((y ++ mealCloseT).drop i) = false) :
    parse_nutritionist_response s = ⟨stripL x, stripL y, s, false⟩ := by
  have h1 : splitOnFirst chatOpenT s = some (a1, x ++ chatCloseT ++ b1) := by
    have hshape : a1 ++ chatOpenT ++ x ++ chatCloseT ++ b1
        = a1 ++ chatOpenT ++ (x ++ chatCloseT ++ b1) := by simp [List.append_assoc]
    rw [hs1, hshape]
    exact splitOnFirst_first a1 (x ++ chatCloseT ++ b1) hf1
  have h2 : splitOnFirst chatCloseT (x ++ chatCloseT ++ b1) = some (x, b1) :=
    splitOnFirst_first x b1 hf2
  have he1 : extractBetween chatOpenT chatCloseT s = some x := by
    have h1r : splitOnFirst chatOpenT s = some (a1, x ++ (chatCloseT ++ b1)) := by
      simpa [List.append_assoc] using h1
    have h2r : splitOnFirst chatCloseT (x ++ (chatCloseT ++ b1)) = some (x, b1) := by
      simpa [List.append_assoc] using h2
    simp [extractBetween, h1r, h2r]
  have h3 : splitOnFirst mealOpenT s = some (a2, y ++ mealCloseT ++ b2) := by
    have hshape : a2 ++ mealOpenT ++ y ++ mealCloseT ++ b2
        = a2 ++ mealOpenT ++ (y ++ mealCloseT ++ b2) := by simp [List.append_assoc]
    rw [hs2, hshape]
    exact splitOnFirst_first a2 (y ++ mealCloseT ++ b2) hf3
  have h4 : splitOnFirst mealCloseT (y ++ mealCloseT ++ b2) = some (y, b2) :=
    splitOnFirst_first y b2 hf4
  have he2 : extractBetween mealOpenT mealCloseT s = some y := by
    have h3r : splitOnFirst mealOpenT s = some (a2, y ++ (mealCloseT ++ b2)) := by
      simpa [List.append_assoc] using h3
    have h4r : splitOnFirst mealCloseT (y ++ (mealCloseT ++ b2)) = some (y, b2) := by
      simpa [List.append_assoc] using h4
    simp [extractBetween, h3r, h4r]
  simp [parse_nutritionist_response, he1, he2]

/-- C3 witness: the theorem applied to a concrete well-formed completion,
whose padded bodies come out trimmed. -/
theorem parse_success_witness :
    parse_nutritionist_response (str "<chat> Hello </chat><meal-plan> Oats </meal-plan>")
        = ⟨stripL (str " Hello "), stripL (str " Oats "),
           str "<chat> Hello </chat><meal-plan> Oats </meal-plan>", false⟩ :=
  parse_success (str "<chat> Hello </chat><meal-plan> Oats </meal-plan>")
    [] (str " Hello ") (str "<meal-plan> Oats </meal-plan>")
    (str "<chat> Hello </chat>") (str " Oats ") []
    (by decide) (by decide) (by decide) (by decide) (by decide) (by decide)

/-- C10: the parser is a total function of its string input (the embedding
returns a record for every input; the Python catch-all is unreachable for
string inputs), and the failure flag is set exactly when at least one of the
two tag pairs is absent from the input. -/
theorem parse_error_flag_iff (s : Str) :
    (parse_nutritionist_response s).parsing_error = true
      ↔ ¬ (TagPairPresent chatOpenT chatCloseT s
            ∧ TagPairPresent mealOpenT mealCloseT s) := by
  cases h1 : extractBetween chatOpenT chatCloseT s with
  | none =>
    have hval : (parse_nutritionist_response s).parsing_error = true := by
      simp [parse_nutritionist_response, h1]
    have hnp : ¬ TagPairPresent chatOpenT chatCloseT s := fun hp =>
      absurd ((extractBetween_isSome_iff _ _ _).2 hp) (by rw [h1]; simp)
    exact ⟨fun _ hab => hnp hab.1, fun _ => hval⟩
  | some c1 =>
    cases h2 : extractBetween mealOpenT mealCloseT s with
    | none =>
      have hval : (parse_nutritionist_response s).parsing_error = true := by
        simp [parse_nutritionist_response, h1, h2]
      have hnp : ¬ TagPairPresent mealOpenT mealCloseT s := fun hp =>
        absurd ((extractBetween_isSome_iff _ _ _).2 hp) (by rw [h2]; simp)
      exact ⟨fun _ hab => hnp hab.2, fun _ => hval⟩
    | some m1 =>
      have hval : (parse_nutritionist_response s).parsing_error = false := by
        simp [parse_nutritionist_response, h1, h2]
      have hA : TagPairPresent chatOpenT chatCloseT s :=
        (extractBetween_isSome_iff _ _ _).1 (by rw [h1]; rfl)
      have hB : TagPairPresent mealOpenT mealCloseT s :=
        (extractBetween_isSome_iff _ _ _).1 (by rw [h2]; rfl)
      rw [hval]
      exact ⟨fun hft => absurd hft (by simp), fun hn => absurd ⟨hA, hB⟩ hn⟩

/-- C4 counterexample: with `max_tokens` absent, `OpenAIProvider.generate`
does not substitute a 1000-token default — the request it issues to the
transport carries no `max_tokens` value at all. -/
theorem provider_default_counterexample :
    (openaiRequest openaiDefaultModel (str "Hi") none none none).max_tokens = none
      ∧ (openaiRequest openaiDefaultModel (str "Hi") none none none).max_tokens
          ≠ some 1000 :=
  ⟨rfl, by simp [openaiRequest]⟩

/-- C4 (amended): both providers substitute their own default model when
`model` is absent; `AnthropicProvider.generate` substitutes the 1000 default
token ceiling when `max_tokens` is absent, while `OpenAIProvider.generate`
forwards `max_tokens` unchanged, so an absent value stays absent in the
issued request. -/
theorem provider_defaults (prompt : Str) (mt : Option Nat) (tp : Option Temperature) :
    (anthropicRequest anthropicDefaultModel prompt none mt tp).model = anthropicDefaultModel
      ∧ (anthropicRequest anthropicDefaultModel prompt none none tp).max_tokens = 1000
      ∧ (openaiRequest openaiDefaultModel prompt none mt tp).model = openaiDefaultModel
      ∧ (openaiRequest openaiDefaultModel prompt none mt tp).max_tokens = mt :=
  ⟨rfl, rfl, rfl, rfl⟩

/-- C6: constructing the configuration with no key argument and no key in the
environment fails at construction with the configuration error; constructing
it with a non-empty key succeeds and stores that key unchanged. -/
theorem config_requires_key (k : Str) (env : Option Str) (hk : k ≠ []) :
    configInit none none = Except.error configErrMsg
      ∧ configInit (some k) env = Except.ok k := by
  refine ⟨rfl, ?_⟩
  simp [configInit, pyFirstTruthy, hk]

/-- C6 witness: the theorem applied to a concrete non-empty key. -/
theorem config_requires_key_witness :
    configInit none none = Except.error configErrMsg
      ∧ configInit (some (str "sk-test")) none = Except.ok (str "sk-test") :=
  config_requires_key (str "sk-test") none (by decide)

/-- C7: for each provider, when the transport succeeds `generate` returns the
transport's text; when the transport fails `generate` raises exactly one
generic provider error whose message contains the original failure message as
context; and each invocation issues exactly one transport request. -/
theorem provider_error_translation
    (ta : AnthropicRequest → Except Str Str) (tb : OpenAIRequest → Except Str Str)
    (dmA dmO prompt : Str) (m : Option Str) (mt : Option Nat) (tp : Option Temperature) :
    (∀ txt, ta (anthropicRequest dmA prompt m mt tp) = Except.ok txt →
        anthropic_generate ta dmA prompt m mt tp = Except.ok txt)
      ∧ (∀ e, ta (anthropicRequest dmA prompt m mt tp) = Except.error e →
          anthropic_generate ta dmA prompt m mt tp
              = Except.error (str "Anthropic API error: " ++ e)
            ∧ ∃ a b, str "Anthropic API error: " ++ e = a ++ e ++ b)
      ∧ (anthropic_generate_trace ta dmA prompt m mt tp).2.length = 1
      ∧ (∀ txt, tb (openaiRequest dmO prompt m mt tp) = Except.ok txt →
          openai_generate tb dmO prompt m mt tp = Except.ok txt)
      ∧ (∀ e, tb (openaiRequest dmO prompt m mt tp) = Except.error e →
          openai_generate tb dmO prompt m mt tp
              = Except.error (str "OpenAI API error: " ++ e)
            ∧ ∃ a b, str "OpenAI API error: " ++ e = a ++ e ++ b)
      ∧ (openai_generate_trace tb dmO prompt m mt tp).2.length = 1 := by
  refine ⟨?_, ?_, rfl, ?_, ?_, rfl⟩
  · intro txt h
    simp [anthropic_generate, h]
  · intro e h
    exact ⟨by simp [anthropic_generate, h], ⟨str "Anthropic API error: ", [], by simp⟩⟩
  · intro txt h
    simp [openai_generate, h]
  · intro e h
    exact ⟨by simp [openai_generate, h], ⟨str "OpenAI API error: ", [], by simp⟩⟩

/-- C7 witness: the theorem applied to concrete succeeding and failing
transports. -/
theorem provider_error_translation_witness :
    anthropic_generate (fun _ => Except.ok (str "line1\nline2\nline3"))
        anthropicDefaultModel (str "Write a haiku.") none none none
      = Except.ok (str "line1\nline2\nline3")
      ∧ anthropic_generate (fun _ => Except.error (str "boom"))
          anthropicDefaultModel (str "p") none none none
        = Except.error (str "Anthropic API error: " ++ str "boom")
      ∧ openai_generate (fun _ => Except.error (str "oops"))
          openaiDefaultModel (str "p") none none none
        = Except.error (str "OpenAI API error: " ++ str "oops") :=
  ⟨(provider_error_translation (fun _ => Except.ok (str "line1\nline2\nline3"))
      (fun _ => Except.ok []) anthropicDefaultModel openaiDefaultModel
      (str "Write a haiku.") none none none).1 _ rfl,
   ((provider_error_translation (fun _ => Except.error (str "boom"))
      (fun _ => Except.ok []) anthropicDefaultModel openaiDefaultModel
      (str "p") none none none).2.1 _ rfl).1,
   ((provider_error_translation (fun _ => Except.ok [])
      (fun _ => Except.error (str "oops")) anthropicDefaultModel openaiDefaultModel
      (str "p") none none none).2.2.2.2.1 _ rfl).1⟩

/-- C8: the facade's `generate`, `generate_stream` and `get_available_models`
are pure pass-throughs — for every held provider and all argument values they
return exactly the provider's own result, with no added logic. -/
theorem facade_passthrough (p : Provider) (prompt : Str) (m : Option Str)
    (mt : Option Nat) (tp : Option Temperature) :
    (LLMWrapper.mk p).generate prompt m mt tp = p.generate prompt m mt tp
      ∧ (LLMWrapper.mk p).generate_stream prompt m mt tp
          = p.generate_stream prompt m mt tp
      ∧ (LLMWrapper.mk p).get_available_models = p.get_available_models :=
  ⟨rfl, rfl, rfl⟩
